import Mathlib

/-!
# Verification of `sockeye/scoring.py`

A shallow embedding of the scoring module (`BatchScorer` and `Scorer`) of the
sockeye repository, together with theorems settling the specification claims.

Modelling conventions:
* MXNet tensors become Lean lists; an op on a `(batch, ...)` tensor becomes a
  `List.map`/`List.zip` over the rows.  Floating point numbers are embedded as
  real numbers, so floating-point rounding is out of scope; real division is
  total (`x / 0 = 0`), which no theorem below relies on.
* External collaborators (the neural model, the penalty functions, the
  vocabulary rendering `data_io.ids2tokens`, the batch sharding of
  `data_io.Batch.shards`) are parameters of the embedding; the spec's contracts
  about them appear as hypotheses of the theorems.
* Constants from `sockeye/constants.py` (not part of the sources under
  verification) are modelled from the spec: `PAD_ID` is the reserved padding
  id 0, and the two scoring types are distinct string tags.
-/

namespace Sockeye

/-- Modelled from the spec: id 0 is reserved as the padding sentinel
(`C.PAD_ID`). -/
def PAD_ID : Int := 0

/-- Modelled from the spec: tag for the log-probability scoring type
(`C.SCORING_TYPE_LOGPROB`). -/
def SCORING_TYPE_LOGPROB : String := "logprob"

/-- Modelled from the spec: tag for the negative-log-probability scoring type
(`C.SCORING_TYPE_NEGLOGPROB`). -/
def SCORING_TYPE_NEGLOGPROB : String := "neglogprob"

/-- `BatchScorer.__init__` stores its configuration.  The length and brevity
penalties are the external pure collaborator functions
(`inference.LengthPenalty`, `inference.BrevityPenalty`); the gluon block
bookkeeping argument of the Python constructor is dropped. -/
structure BatchScorer where
  length_penalty : ℝ → ℝ
  brevity_penalty : ℝ → ℝ → ℝ
  score_type : String
  softmax_temperature : Option ℝ
  constant_length_ratio : Option ℝ

/-- `BatchScorer.__init__(length_penalty, brevity_penalty, score_type,
softmax_temperature, constant_length_ratio)`.  The Python body contains no
`raise` and no validation: it only assigns the attributes, so the translated
constructor always returns `Except.ok`.  The error channel is present because a
Python constructor may in general fail. -/
def BatchScorer.init (length_penalty : ℝ → ℝ) (brevity_penalty : ℝ → ℝ → ℝ)
    (score_type : String) (softmax_temperature : Option ℝ)
    (constant_length_ratio : Option ℝ) : Except String BatchScorer :=
  Except.ok
    { length_penalty := length_penalty
      brevity_penalty := brevity_penalty
      score_type := score_type
      softmax_temperature := softmax_temperature
      constant_length_ratio := constant_length_ratio }

/-- `F.softmax(v, axis=-1)` on one vocabulary row. -/
noncomputable def softmax (v : List ℝ) : List ℝ :=
  v.map (fun x => Real.exp x / (v.map Real.exp).sum)

/-- `F.pick(dists, labels, axis=-1)` on one time step.  MXNet `pick` clips an
out-of-range index to the last valid position (its default mode). -/
def pick (v : List ℝ) (i : ℕ) : ℝ :=
  v.getD (min i (v.length - 1)) 0

/-- Lines 63-64: `if self.softmax_temperature is not None: logits = logits /
self.softmax_temperature`, on one sentence (time × vocab). -/
noncomputable def scale_logits (temperature : Option ℝ) (logits : List (List ℝ)) :
    List (List ℝ) :=
  match temperature with
  | some t => logits.map (fun row => row.map (fun x => x / t))
  | none => logits

/-- Lines 65-72 of `BatchScorer.hybrid_forward`, on one sentence: softmax the
(temperature-scaled) logits, pick the gold-label probability per time step,
take logs, and negate if the scoring type is negative log probability. -/
noncomputable def token_scores (bs : BatchScorer) (logits : List (List ℝ))
    (labels : List ℕ) : List ℝ :=
  let dists := (scale_logits bs.softmax_temperature logits).map softmax
  let probs := (dists.zip labels).map (fun p => pick p.1 p.2)
  let ts := probs.map Real.log
  if bs.score_type = SCORING_TYPE_NEGLOGPROB then ts.map (fun x => -x) else ts

/-- Line 76: `F.sum(F.where(labels != 0, token_scores,
F.zeros_like(token_scores)), axis=1)`, on one sentence. -/
def masked_sum (ts : List ℝ) (labels : List ℕ) : ℝ :=
  ((ts.zip labels).map (fun p => if p.2 ≠ 0 then p.1 else 0)).sum

/-- `BatchScorer.hybrid_forward` on one sentence (the tensor version acts
row-wise on the batch axis); lines 63-86 of `scoring.py`.  Note line 83 adds
the constant length ratio to the incoming one:
`length_ratio = length_ratio + self.constant_length_ratio * F.ones_like(scores)`. -/
noncomputable def hybrid_forward_row (bs : BatchScorer) (logits : List (List ℝ))
    (labels : List ℕ) (length_ratio source_length target_length : ℝ) : ℝ :=
  let scores := masked_sum (token_scores bs logits labels) labels /
    bs.length_penalty (target_length - 1)
  let lr :=
    match bs.constant_length_ratio with
    | some c => length_ratio + c * 1
    | none => length_ratio
  scores - bs.brevity_penalty (target_length - 1) (lr * source_length)

/-- The claim's formulation of the raw score (C2): the sum, over the time
steps whose label id is not PAD (id 0), of the natural logarithm of the
softmax probability (after optional temperature division) assigned to the gold
label id at that step. -/
noncomputable def gold_logprob_sum (temperature : Option ℝ)
    (logits : List (List ℝ)) (labels : List ℕ) : ℝ :=
  ((((scale_logits temperature logits).zip labels).filter
      (fun p => p.2 ≠ 0)).map
        (fun p => Real.log (pick (softmax p.1) p.2))).sum

/-- One row (sentence) of a `data_io.Batch`: the aligned tensors of the data
model share the leading batch dimension, so a batch is embedded as a list of
rows.  `source` is the per-sentence `(length, num_factors)` slice of the source
tensor; `labels` are the gold target ids compared against PAD id 0. -/
structure Row where
  source : List (List Int)
  source_length : ℝ
  target : List Int
  target_length : ℝ
  labels : List ℕ

/-- The output dictionary of one model invocation for one row: the logits
slice `(length, vocab)` and, optionally, the predicted length ratio
(`outputs.get(C.LENRATIO_NAME, ...)` misses exactly when the model omits
it). -/
structure ModelOutput where
  logits : List (List ℝ)
  length_ratio : Option ℝ

/-- Modelled from the spec: the opaque model is a pure per-row scoring
function (spec section 5: shard evaluation is pure data parallelism, each row
independent). -/
def Model : Type := Row → ModelOutput

/-- Lines 119-124 of `score_batch` for one row of a shard: invoke the model,
read the logits, default a missing length ratio to zero
(`mx.nd.zeros_like(source_length)`), and apply the batch scorer. -/
noncomputable def score_row (bs : BatchScorer) (model : Model) (r : Row) : ℝ :=
  let out := model r
  hybrid_forward_row bs out.logits r.labels (out.length_ratio.getD 0)
    r.source_length r.target_length

/-- `Scorer.score_batch` given the shard partition produced by
`batch.shards()`: score each shard with the model and the batch scorer
(`hybrid_forward_row` acting row-wise), then `mx.nd.concat(*batch_scores,
dim=0)` in shard index order. -/
noncomputable def score_batch_shards (bs : BatchScorer) (model : Model)
    (shards : List (List Row)) : List ℝ :=
  (shards.map (fun shard => shard.map (score_row bs model))).flatten

/-- The score field of an emitted record: either the computed scalar
(`score.asscalar()`) or the negative-infinity sentinel (`-np.inf`) of
line 153. -/
inductive ScoreVal where
  | negInf : ScoreVal
  | val : ℝ → ScoreVal

/-- Line 145, `source[:, 0]`: the ids of the first (primary) source factor,
one per source position. -/
def primary_source_ids (source : List (List Int)) : List Int :=
  source.map (fun pos => pos.getD 0 0)

/-- Line 152, `source[0][0]`: the first factor of the first source position
(the data model guarantees at least one position and one factor). -/
def first_source_id (source : List (List Int)) : Int :=
  (source.getD 0 []).getD 0 0

/-- Line 152, `target[0]`: the first target id. -/
def first_target_id (target : List Int) : Int :=
  target.getD 0 0

/-- Line 152: `source[0][0] == C.PAD_ID or target[0] == C.PAD_ID`, the
degenerate-pair check. -/
def invalid_pair (r : Row) : Bool :=
  first_source_id r.source == PAD_ID || first_target_id r.target == PAD_ID

/-- The `Scorer` object.  The external collaborators are modelled from the
spec as function-valued fields: `shardsOf` is the shard partition produced by
`batch.split_and_load` plus `batch.shards()` (its covering contract is a
hypothesis of the theorems below); `ids2tokens` is `data_io.ids2tokens` with
the reverse source vocabulary and the exclude set applied; `render_target`
is `C.TOKEN_SEPARATOR.join(data_io.ids2tokens(...))` for the target side. -/
structure Scorer where
  batch_scorer : BatchScorer
  model : Model
  shardsOf : List Row → List (List Row)
  ids2tokens : List Int → List String
  render_target : List Int → String

/-- One `output_handler.handle` call (lines 158-160): the sentence number
passed to both inference records, the rendered source tokens, the rendered
target string, and the final score. -/
structure OutRecord where
  sentence_no : ℕ
  source_tokens : List String
  target_string : String
  score : ScoreVal

/-- Lines 144-160 for one sentence: render the primary-factor source ids and
the target ids, override the score with negative infinity when the pair is
degenerate, and emit the record. -/
def make_record (s : Scorer) (sentence_no : ℕ) (r : Row) (score : ℝ) :
    OutRecord :=
  { sentence_no := sentence_no
    source_tokens := s.ids2tokens (primary_source_ids r.source)
    target_string := s.render_target r.target
    score := if invalid_pair r then ScoreVal.negInf else ScoreVal.val score }

/-- Lines 141-160: `for sentno, (source, target, score) in
enumerate(zip(batch.source, batch.target, scores), 1)` with the running
`sentence_no += 1`; `zip` stops at the shorter of the rows and the scores. -/
def emit_rows (s : Scorer) : ℕ → List Row → List ℝ → List OutRecord
  | _, [], _ => []
  | _, _ :: _, [] => []
  | n, r :: rs, sc :: scs => make_record s (n + 1) r sc :: emit_rows s (n + 1) rs scs

/-- Lines 135-160 of `Scorer.score`: iterate the batches in stream order,
score each batch through the sharded `score_batch`, and emit one record per
sentence while threading the running 1-based sentence counter. -/
noncomputable def score_loop (s : Scorer) : ℕ → List (List Row) → List OutRecord
  | _, [] => []
  | n, b :: bs =>
    let scores := score_batch_shards s.batch_scorer s.model (s.shardsOf b)
    let recs := emit_rows s n b scores
    recs ++ score_loop s (n + recs.length) bs

/-- `Scorer.score`: the full stream of records sent to the output handler. -/
noncomputable def Scorer.score (s : Scorer) (batches : List (List Row)) :
    List OutRecord :=
  score_loop s 0 batches

/-- The claim's description of the emitted stream (C8): one record per
sentence of the flattened stream, in arrival order, the k-th record carrying
the 1-based sentence id k and that sentence's computed score. -/
noncomputable def records_spec (s : Scorer) : ℕ → List Row → List OutRecord
  | _, [] => []
  | n, r :: rs =>
    make_record s (n + 1) r (score_row s.batch_scorer s.model r) ::
      records_spec s (n + 1) rs

/-- `math.ceil(sentence_no / batch_no)` at line 164, as the integer ceiling
of the exact rational quotient. -/
def ceil_div (n b : ℕ) : ℕ := (n + b - 1) / b

/-- Lines 162-167: the summary emitted after the stream is exhausted.  `fmt`
is the `%.4f` float rendering of the logging layer, external to this module.
The per-sentence and per-second figures are computed only in the nonzero
branch. -/
noncomputable def summary_message (fmt : ℝ → String)
    (sentence_no batch_no : ℕ) (total_time : ℝ) : String :=
  if sentence_no ≠ 0 then
    "Processed " ++ toString sentence_no ++ " lines in " ++
      toString (ceil_div sentence_no batch_no) ++ " batches. Total time: " ++
      fmt total_time ++ ", sec/sent: " ++ fmt (total_time / (sentence_no : ℝ)) ++
      ", sent/sec: " ++ fmt ((sentence_no : ℝ) / total_time)
  else "Processed 0 lines."

/-- The summary line exactly as the claim words it (with a literal " sec"
after the total time), for comparison with `summary_message`. -/
noncomputable def claimed_summary_message (fmt : ℝ → String)
    (sentence_no batch_no : ℕ) (total_time : ℝ) : String :=
  if sentence_no ≠ 0 then
    "Processed " ++ toString sentence_no ++ " lines in " ++
      toString (ceil_div sentence_no batch_no) ++ " batches. Total time: " ++
      fmt total_time ++ " sec, sec/sent: " ++ fmt (total_time / (sentence_no : ℝ)) ++
      ", sent/sec: " ++ fmt ((sentence_no : ℝ) / total_time)
  else "Processed 0 lines."

/-- `Scorer.score` including its final summary log line: the emitted records
together with the message produced from the final sentence and batch
counters and the accumulated time. -/
noncomputable def Scorer.run (s : Scorer) (fmt : ℝ → String)
    (batches : List (List Row)) (total_time : ℝ) :
    List OutRecord × String :=
  (Scorer.score s batches,
    summary_message fmt (Scorer.score s batches).length batches.length total_time)

end Sockeye

namespace Sockeye

theorem logprob_ne_neglogprob : SCORING_TYPE_LOGPROB ≠ SCORING_TYPE_NEGLOGPROB := by
  decide

/-- Masking with the label list and summing equals summing the map over the
label-filtered zip. -/
theorem masked_sum_map_zip {α : Type} (g : α × ℕ → ℝ) :
    ∀ (xs : List α) (ys : List ℕ),
      masked_sum ((xs.zip ys).map g) ys =
        (((xs.zip ys).filter (fun p => p.2 ≠ 0)).map g).sum := by
  intro xs
  induction xs with
  | nil => intro ys; simp [masked_sum]
  | cons x xs ih =>
    intro ys
    cases ys with
    | nil => simp [masked_sum]
    | cons y ys =>
      have h := ih ys
      by_cases hy : y = 0
      · simp only [masked_sum, List.zip, List.filter, hy] at h ⊢
        simpa using h
      · simp only [masked_sum, List.zip, List.filter, hy] at h ⊢
        simpa [hy] using congrArg (fun z => g (x, y) + z) h

/-- Negating every token score negates the masked sum. -/
theorem masked_sum_neg : ∀ (ts : List ℝ) (ys : List ℕ),
    masked_sum (ts.map (fun x => -x)) ys = -masked_sum ts ys := by
  intro ts
  induction ts with
  | nil => intro ys; simp [masked_sum]
  | cons t ts ih =>
    intro ys
    cases ys with
    | nil => simp [masked_sum]
    | cons y ys =>
      have h := ih ys
      simp only [masked_sum, List.zip, ne_eq, ite_not] at h ⊢
      simp only [List.map_cons, List.zipWith_cons_cons, List.sum_cons]
      by_cases hy : y = 0
      · simp [hy, h]
      · simp only [hy, if_neg hy, ite_false]
        rw [h]
        ring

/-- Claim C2: with brevity penalty the constant 0 function and length penalty the
constant 1 function, the log-probability score of `hybrid_forward_row` equals
the sum of the log softmax probabilities of the gold labels over the non-PAD
time steps (PAD-labelled steps contribute nothing). -/
theorem logprob_score_eq_gold_sum (bs : BatchScorer) (logits : List (List ℝ))
    (labels : List ℕ) (length_ratio source_length target_length : ℝ)
    (hlp : bs.length_penalty = fun _ => 1)
    (hbp : bs.brevity_penalty = fun _ _ => 0)
    (hst : bs.score_type = SCORING_TYPE_LOGPROB) :
    hybrid_forward_row bs logits labels length_ratio source_length target_length =
      gold_logprob_sum bs.softmax_temperature logits labels := by
  have key := masked_sum_map_zip
    (fun p => Real.log (pick (softmax p.1) p.2))
    (scale_logits bs.softmax_temperature logits) labels
  unfold hybrid_forward_row token_scores gold_logprob_sum
  rw [hlp, hbp, hst]
  simp only [if_neg logprob_ne_neglogprob, div_one, sub_zero, List.map_map,
    List.zip_map_left]
  simpa [Function.comp] using key

/-- Configuration used to instantiate C2: neutral penalties, log-probability
scoring, no temperature. -/
noncomputable def bsC2 : BatchScorer :=
  { length_penalty := fun _ => 1
    brevity_penalty := fun _ _ => 0
    score_type := SCORING_TYPE_LOGPROB
    softmax_temperature := none
    constant_length_ratio := none }

theorem logprob_score_eq_gold_sum_w :
    hybrid_forward_row bsC2 [[0]] [1] 0 1 2 = gold_logprob_sum none [[0]] [1] :=
  logprob_score_eq_gold_sum bsC2 [[0]] [1] 0 1 2 rfl rfl rfl

/-- Claim C9: with both penalties neutralized, negative-log-probability scoring
yields the negation of log-probability scoring on identical inputs. -/
theorem neglogprob_eq_neg_logprob (bs1 bs2 : BatchScorer)
    (logits : List (List ℝ)) (labels : List ℕ)
    (length_ratio source_length target_length : ℝ)
    (h1 : bs1.score_type = SCORING_TYPE_NEGLOGPROB)
    (h2 : bs2.score_type = SCORING_TYPE_LOGPROB)
    (htemp : bs1.softmax_temperature = bs2.softmax_temperature)
    (hlp1 : bs1.length_penalty = fun _ => 1)
    (hlp2 : bs2.length_penalty = fun _ => 1)
    (hbp1 : bs1.brevity_penalty = fun _ _ => 0)
    (hbp2 : bs2.brevity_penalty = fun _ _ => 0) :
    hybrid_forward_row bs1 logits labels length_ratio source_length target_length =
      -hybrid_forward_row bs2 logits labels length_ratio source_length target_length := by
  unfold hybrid_forward_row token_scores
  rw [h1, h2, htemp, hlp1, hlp2, hbp1, hbp2]
  simp only [if_pos rfl, if_neg logprob_ne_neglogprob, div_one, sub_zero]
  exact masked_sum_neg _ labels

/-- Negative-log-probability counterpart of `bsC2`, used to instantiate C9. -/
noncomputable def bsC9 : BatchScorer :=
  { length_penalty := fun _ => 1
    brevity_penalty := fun _ _ => 0
    score_type := SCORING_TYPE_NEGLOGPROB
    softmax_temperature := none
    constant_length_ratio := none }

theorem neglogprob_eq_neg_logprob_w :
    hybrid_forward_row bsC9 [[0]] [1] 0 1 2 =
      -hybrid_forward_row bsC2 [[0]] [1] 0 1 2 :=
  neglogprob_eq_neg_logprob bsC9 bsC2 [[0]] [1] 0 1 2 rfl rfl rfl rfl rfl rfl rfl

/-- A concrete configuration with `constant_length_ratio = 1` and a brevity
penalty that returns its expected-length argument. -/
noncomputable def bsC1 : BatchScorer :=
  { length_penalty := fun _ => 1
    brevity_penalty := fun _ x => x
    score_type := SCORING_TYPE_LOGPROB
    softmax_temperature := none
    constant_length_ratio := some 1 }

/-- Claim C1 (code bug): with `constant_length_ratio` configured, the score is NOT invariant to
the model-predicted length ratio: line 83 adds the constant to the predicted
ratio instead of replacing it (contradicting the adjacent comment, which says
override).  On an empty sentence with source length 1, predicted ratios 0 and 1
give scores -1 and -2. -/
theorem constant_length_ratio_not_invariant :
    hybrid_forward_row bsC1 [] [] 0 1 1 ≠ hybrid_forward_row bsC1 [] [] 1 1 1 := by
  have h0 : hybrid_forward_row bsC1 [] [] 0 1 1 = -1 := by
    simp [hybrid_forward_row, bsC1, token_scores, scale_logits, masked_sum]
  have h1 : hybrid_forward_row bsC1 [] [] 1 1 1 = -2 := by
    simp [hybrid_forward_row, bsC1, token_scores, scale_logits, masked_sum]
    norm_num
  rw [h0, h1]
  norm_num

/-- Claim C6 counterexample: constructing a `BatchScorer` with an invalid score type
and a negative softmax temperature succeeds: `__init__` performs no
validation. -/
theorem init_accepts_invalid_cex :
    (BatchScorer.init (fun _ => 1) (fun _ _ => 0) "invalid" (some (-1)) none).isOk
      = true := rfl

/-- Claim C6 (amended): `BatchScorer` construction never fails; every score type and
temperature is accepted and stored unchanged, with no validation at
construction time. -/
theorem init_always_ok (lp : ℝ → ℝ) (bp : ℝ → ℝ → ℝ) (st : String)
    (temp clr : Option ℝ) :
    BatchScorer.init lp bp st temp clr =
      Except.ok
        { length_penalty := lp
          brevity_penalty := bp
          score_type := st
          softmax_temperature := temp
          constant_length_ratio := clr } := rfl

/-- Concatenating the per-shard score lists in shard index order scores the
concatenation of the shards row by row. -/
theorem score_batch_shards_eq_map (bs : BatchScorer) (model : Model) :
    ∀ shards : List (List Row),
      score_batch_shards bs model shards = shards.flatten.map (score_row bs model) := by
  intro shards
  induction shards with
  | nil => simp [score_batch_shards]
  | cons s ss ih =>
    simp only [score_batch_shards, List.map_cons, List.flatten_cons, List.map_append]
    simp only [score_batch_shards] at ih
    rw [ih]

/-- Claim C4: for any partition of a batch into K ≥ 1 shards covering the rows
disjointly in index order (`shards.flatten` is the batch), the concatenated
result of `score_batch` has one score per batch row and is identical to the
single-shard (K = 1) result. -/
theorem score_batch_sharding_invariant (bs : BatchScorer) (model : Model)
    (shards : List (List Row)) (_hK : 1 ≤ shards.length) :
    score_batch_shards bs model shards =
        score_batch_shards bs model [shards.flatten] ∧
      (score_batch_shards bs model shards).length = shards.flatten.length := by
  constructor
  · rw [score_batch_shards_eq_map, score_batch_shards_eq_map]
    simp
  · rw [score_batch_shards_eq_map]
    simp only [List.length_map]

/-- A model used for concrete instantiations: no logits, no predicted length
ratio. -/
def trivialModel : Model := fun _ => { logits := [], length_ratio := none }

/-- A concrete row with one source position carrying two factors. -/
def rowA : Row :=
  { source := [[5, 9]], source_length := 1, target := [3], target_length := 1,
    labels := [3] }

/-- A second concrete row, degenerate: its source and target start with
PAD. -/
def rowB : Row :=
  { source := [[0, 4]], source_length := 1, target := [0], target_length := 1,
    labels := [0] }

theorem score_batch_sharding_invariant_w :
    score_batch_shards bsC2 trivialModel [[rowA], [rowB]] =
        score_batch_shards bsC2 trivialModel [[rowA, rowB]] ∧
      (score_batch_shards bsC2 trivialModel [[rowA], [rowB]]).length = 2 := by
  have h := score_batch_sharding_invariant bsC2 trivialModel [[rowA], [rowB]]
    (by decide)
  exact ⟨by simpa using h.1, by simpa using h.2⟩

/-!
## The fp16 shard path (C7)

Lines 117-120 of `score_batch`:

    if self.model.dtype == C.DTYPE_FP16:
        inputs = (i.astype(C.DTYPE_FP16, copy=False) for i in inputs)
    source, source_length, target, target_length = inputs
    outputs = self.model(*inputs)

In the fp16 branch `inputs` is rebound to a generator expression.  Python
iterable unpacking (`a, b, c, d = inputs`) drains a generator, while a tuple
(the non-fp16 case) can be iterated again.  The subsequent star-argument
expansion `self.model(*inputs)` therefore passes the remaining elements of the
iterator, which for the drained generator is the empty argument list.
-/

/-- The `inputs` variable of the shard loop: either the original tuple from
`batch.shards()` or the generator expression of the fp16 branch.  Reading a
generator consumes it; a tuple is re-iterable. -/
inductive InputsIter (α : Type) where
  | tup (xs : List α)
  | gen (remaining : List α)

/-- `source, source_length, target, target_length = inputs`: yields every
remaining element; a generator is left exhausted, a tuple is unchanged. -/
def InputsIter.unpack {α : Type} : InputsIter α → List α × InputsIter α
  | .tup xs => (xs, .tup xs)
  | .gen xs => (xs, .gen [])

/-- `*inputs`: the positional arguments produced by star-expanding the
iterable at line 120. -/
def InputsIter.star {α : Type} : InputsIter α → List α
  | .tup xs => xs
  | .gen xs => xs

/-- The positional-argument list that line 120 passes to `self.model`, as a
function of the dtype flag, the fp16 cast, and the shard's input tuple. -/
def shard_model_args {α : Type} (fp16 : Bool) (cast16 : α → α)
    (inputs : List α) : List α :=
  let it : InputsIter α := if fp16 then .gen (inputs.map cast16) else .tup inputs
  let u := it.unpack
  u.2.star

/-- Calling the model, a Python callable with exactly four positional
parameters `(source, source_length, target, target_length)`: any other
argument count raises a TypeError. -/
def call_model {α β : Type} (f : α → α → α → α → β) (args : List α) :
    Except String β :=
  match args with
  | [a, b, c, d] => Except.ok (f a b c d)
  | _ => Except.error "TypeError"

/-- Claim C7 (code bug): in fp16 mode the generator of cast inputs is drained by the
tuple unpacking at line 119, so the model call at line 120 receives an empty
argument list and raises, instead of receiving the four cast inputs.  In
non-fp16 mode the same call passes the four original inputs. -/
theorem fp16_model_call_empty_args {α β : Type} (cast16 : α → α)
    (f : α → α → α → α → β) (s sl t tl : α) :
    shard_model_args true cast16 [s, sl, t, tl] = [] ∧
      call_model f (shard_model_args true cast16 [s, sl, t, tl]) =
        Except.error "TypeError" ∧
      call_model f (shard_model_args false cast16 [s, sl, t, tl]) =
        Except.ok (f s sl t tl) := by
  refine ⟨rfl, rfl, rfl⟩

theorem negInf_ne_val (x : ℝ) : ScoreVal.negInf ≠ ScoreVal.val x :=
  fun h => ScoreVal.noConfusion h

/-- Feeding `emit_rows` the row-wise score vector of its rows produces the
per-row record list. -/
theorem emit_rows_map (s : Scorer) :
    ∀ (rows : List Row) (n : ℕ),
      emit_rows s n rows (rows.map (score_row s.batch_scorer s.model)) =
        records_spec s n rows := by
  intro rows
  induction rows with
  | nil => intro n; rfl
  | cons r rs ih => intro n; simp [emit_rows, records_spec, ih]

theorem records_spec_append (s : Scorer) :
    ∀ (xs ys : List Row) (n : ℕ),
      records_spec s n (xs ++ ys) =
        records_spec s n xs ++ records_spec s (n + xs.length) ys := by
  intro xs
  induction xs with
  | nil => intro ys n; simp [records_spec]
  | cons x xs ih =>
    intro ys n
    have hx : (x :: xs) ++ ys = x :: (xs ++ ys) := rfl
    rw [hx]
    simp only [records_spec, List.length_cons, List.cons_append]
    rw [ih ys (n + 1)]
    have hn : n + 1 + xs.length = n + (xs.length + 1) := by omega
    rw [hn]

theorem records_spec_length (s : Scorer) :
    ∀ (rows : List Row) (n : ℕ),
      (records_spec s n rows).length = rows.length := by
  intro rows
  induction rows with
  | nil => intro n; rfl
  | cons r rs ih => intro n; simp [records_spec, ih]

/-- The master loop lemma: when the shard partitions cover each batch's rows
in order, the streaming loop emits the in-order per-row records of the
flattened stream, with ids continuing from the incoming counter. -/
theorem score_loop_eq_records_spec (s : Scorer)
    (h : ∀ rows, (s.shardsOf rows).flatten = rows) :
    ∀ (batches : List (List Row)) (n : ℕ),
      score_loop s n batches = records_spec s n batches.flatten := by
  intro batches
  induction batches with
  | nil => intro n; rfl
  | cons b bs ih =>
    intro n
    have hb : score_batch_shards s.batch_scorer s.model (s.shardsOf b) =
        b.map (score_row s.batch_scorer s.model) := by
      rw [score_batch_shards_eq_map, h b]
    simp only [score_loop, hb, emit_rows_map, List.flatten_cons,
      records_spec_append, records_spec_length]
    rw [ih]

/-- Claim C8: the streaming score operation emits exactly one record per
sentence, in strict stream arrival order (batches in order, rows within each
batch in order), the k-th record carrying the 1-based sentence id k. -/
theorem stream_order_and_ids (s : Scorer) (batches : List (List Row))
    (h : ∀ rows, (s.shardsOf rows).flatten = rows) :
    Scorer.score s batches = records_spec s 0 batches.flatten ∧
      (Scorer.score s batches).length = batches.flatten.length ∧
      ∀ i (hi : i < (Scorer.score s batches).length),
        ((Scorer.score s batches).get ⟨i, hi⟩).sentence_no = i + 1 := by
  have hm : Scorer.score s batches = records_spec s 0 batches.flatten :=
    score_loop_eq_records_spec s h batches 0
  refine ⟨hm, ?_, ?_⟩
  · rw [hm, records_spec_length]
  · have key : ∀ (rows : List Row) (n i : ℕ)
        (hi : i < (records_spec s n rows).length),
        ((records_spec s n rows).get ⟨i, hi⟩).sentence_no = n + i + 1 := by
      intro rows
      induction rows with
      | nil => intro n i hi; simp [records_spec] at hi
      | cons r rs ih =>
        intro n i hi
        cases i with
        | zero => rfl
        | succ j =>
          have hj : j < (records_spec s (n + 1) rs).length := by
            simpa [records_spec] using hi
          have hrec := ih (n + 1) j hj
          simp only [records_spec, List.get_eq_getElem,
            List.getElem_cons_succ] at hrec ⊢
          omega
    intro i hi
    have hi2 : i < (records_spec s 0 batches.flatten).length := by
      rw [← hm]; exact hi
    have hget := List.get_of_eq hm ⟨i, hi⟩
    rw [hget]
    simpa using key batches.flatten 0 i hi2

/-- A concrete scorer for instantiations: identity sharding (one shard), the
trivial model, empty renderings. -/
noncomputable def scorerC : Scorer :=
  { batch_scorer := bsC2
    model := trivialModel
    shardsOf := fun rows => [rows]
    ids2tokens := fun _ => []
    render_target := fun _ => "" }

theorem stream_order_and_ids_w :
    (Scorer.score scorerC [[rowA]]).length = 1 := by
  have h := stream_order_and_ids scorerC [[rowA]] (fun rows => by simp [scorerC])
  simpa using h.2.1

/-- Paired with its input row, every emitted record's score field is the
degenerate-override of that row's computed score. -/
theorem records_spec_zip_score (s : Scorer) :
    ∀ (rows : List Row) (n : ℕ) (p : OutRecord × Row),
      p ∈ (records_spec s n rows).zip rows →
        p.1.score = if invalid_pair p.2 then ScoreVal.negInf
          else ScoreVal.val (score_row s.batch_scorer s.model p.2) := by
  intro rows
  induction rows with
  | nil => intro n p hp; simp [records_spec] at hp
  | cons r rs ih =>
    intro n p hp
    simp only [records_spec, List.zip_cons_cons, List.mem_cons] at hp
    rcases hp with hp | hp
    · subst hp; rfl
    · exact ih (n + 1) p hp

/-- Claim C3: a record emitted by the streaming score operation carries
exactly negative infinity iff its sentence's first source id or first target
id is PAD; every other record carries the score computed by `score_batch`
unchanged. -/
theorem record_score_neginf_iff (s : Scorer) (batches : List (List Row))
    (h : ∀ rows, (s.shardsOf rows).flatten = rows) :
    ∀ p ∈ (Scorer.score s batches).zip batches.flatten,
      (p.1.score = ScoreVal.negInf ↔ invalid_pair p.2 = true) ∧
        (invalid_pair p.2 = false →
          p.1.score = ScoreVal.val (score_row s.batch_scorer s.model p.2)) := by
  intro p hp
  rw [Scorer.score, score_loop_eq_records_spec s h] at hp
  have hk := records_spec_zip_score s batches.flatten 0 p hp
  by_cases hi : invalid_pair p.2 = true
  · rw [if_pos hi] at hk
    refine ⟨⟨fun _ => hi, fun _ => hk⟩, fun hfalse => ?_⟩
    rw [hi] at hfalse
    cases hfalse
  · rw [if_neg hi] at hk
    refine ⟨⟨fun hcon => (negInf_ne_val _ (hk.symm.trans hcon).symm).elim,
      fun htrue => absurd htrue hi⟩, fun _ => hk⟩

theorem record_score_neginf_iff_w :
    ((make_record scorerC 1 rowB
          (score_row scorerC.batch_scorer scorerC.model rowB)).score
        = ScoreVal.negInf ↔ invalid_pair rowB = true) ∧
      (invalid_pair rowB = false →
        (make_record scorerC 1 rowB
            (score_row scorerC.batch_scorer scorerC.model rowB)).score
          = ScoreVal.val (score_row scorerC.batch_scorer scorerC.model rowB)) := by
  refine record_score_neginf_iff scorerC [[rowB]] (fun rows => by simp [scorerC])
    (make_record scorerC 1 rowB
      (score_row scorerC.batch_scorer scorerC.model rowB), rowB) ?_
  simp [Scorer.score, score_loop, score_batch_shards, emit_rows, scorerC]

/-- Claim C5 counterexample: at one sentence in one batch, the line the code
emits reads "Total time: T," where the claim's wording reads
"Total time: T sec,"; the two strings differ. -/
theorem summary_line_sec_cex :
    summary_message (fun _ => "0.0000") 1 1 1 ≠
      claimed_summary_message (fun _ => "0.0000") 1 1 1 := by
  decide

/-- Claim C5 (amended): after exhausting the stream the emitted summary is
exactly "Processed N lines in B batches. Total time: T, sec/sent: X,
sent/sec: Y" (no literal " sec" after the total time), where N is the total
sentence count and B = ceil(N / last batch index); with zero sentences
processed it is exactly "Processed 0 lines.", independent of the timing
figures. -/
theorem summary_line_correct (s : Scorer) (fmt : ℝ → String)
    (batches : List (List Row)) (T : ℝ)
    (h : ∀ rows, (s.shardsOf rows).flatten = rows) :
    (batches.flatten = [] →
        (Scorer.run s fmt batches T).2 = "Processed 0 lines.") ∧
      (batches.flatten ≠ [] → (Scorer.run s fmt batches T).2 =
        "Processed " ++ toString batches.flatten.length ++ " lines in " ++
          toString (ceil_div batches.flatten.length batches.length) ++
          " batches. Total time: " ++ fmt T ++ ", sec/sent: " ++
          fmt (T / (batches.flatten.length : ℝ)) ++ ", sent/sec: " ++
          fmt ((batches.flatten.length : ℝ) / T)) := by
  have hl : (Scorer.score s batches).length = batches.flatten.length := by
    rw [Scorer.score, score_loop_eq_records_spec s h, records_spec_length]
  constructor
  · intro h0
    show summary_message fmt (Scorer.score s batches).length batches.length T = _
    rw [hl, h0]
    rfl
  · intro h0
    have hz : batches.flatten.length ≠ 0 := by
      intro hcon
      exact h0 (List.length_eq_zero.mp hcon)
    show summary_message fmt (Scorer.score s batches).length batches.length T = _
    rw [hl]
    simp only [summary_message]
    rw [if_pos hz]

theorem summary_line_correct_w :
    (Scorer.run scorerC (fun _ => "0.0000") [[rowA]] 1).2 =
      "Processed 1 lines in 1 batches. Total time: 0.0000, sec/sent: 0.0000, sent/sec: 0.0000" := by
  have h := (summary_line_correct scorerC (fun _ => "0.0000") [[rowA]] 1
    (fun rows => by simp [scorerC])).2 (by simp)
  rw [h]
  rfl

theorem first_source_id_eq (src : List (List Int)) :
    first_source_id src = (primary_source_ids src).getD 0 0 := by
  cases src <;> simp [first_source_id, primary_source_ids]

/-- Claim C10: the rendered source token sequence is a function of the
primary (first) source factor only, and the degenerate-pair check inspects
only the first factor of the first source position: two rows that agree on
the primary factor column (and on the target) render identically and agree on
the check, whatever their additional factors hold. -/
theorem source_rendering_factor0_only (s : Scorer) (n : ℕ) (sc : ℝ)
    (r1 r2 : Row)
    (hsrc : primary_source_ids r1.source = primary_source_ids r2.source)
    (htgt : r1.target = r2.target) :
    (make_record s n r1 sc).source_tokens =
        (make_record s n r2 sc).source_tokens ∧
      invalid_pair r1 = invalid_pair r2 := by
  constructor
  · simp [make_record, hsrc]
  · simp [invalid_pair, first_source_id_eq, hsrc, htgt, first_target_id]

/-- `rowA` with a different id in the second (non-primary) source factor. -/
def rowA2 : Row :=
  { source := [[5, 7]], source_length := 1, target := [3], target_length := 1,
    labels := [3] }

theorem source_rendering_factor0_only_w :
    (make_record scorerC 1 rowA 0).source_tokens =
        (make_record scorerC 1 rowA2 0).source_tokens ∧
      invalid_pair rowA = invalid_pair rowA2 :=
  source_rendering_factor0_only scorerC 1 0 rowA rowA2 (by decide) (by decide)

end Sockeye
